import Mathlib

set_option maxHeartbeats 1000000

/-! Shallow embedding of the compio core: the buffer operations of
compio-buf (io_buf.rs), the io_uring backend state machine of
compio-driver (iour/mod.rs), and the poll-driver registry operations
of src/driver/mod.rs. Machine integers are modelled as Nat or Int;
the kernel is an explicit oracle of raw submit results and completion
entries. -/

/-- A mutable buffer abstracted to the two quantities that
`set_buf_init` touches: total capacity and the count of initialized
bytes. This mirrors the `Vec<u8>` conformance, whose `buf_len` is
`len()` and whose `buf_capacity` is `capacity()`. -/
structure MutBuf where
  cap : Nat
  len : Nat
deriving DecidableEq

/-- `SetBufInit::set_buf_init` for `Vec<u8>` (io_buf.rs): if the current
initialized length is below `n`, record `n` as the new length;
otherwise do nothing. -/
def MutBuf.setBufInit (b : MutBuf) (n : Nat) : MutBuf :=
  if b.len < n then { b with len := n } else b

/-- `default_set_buf_init` (io_buf.rs): walk the sub-buffers front to
back; while the remaining count is at least the capacity of the head,
set the head to its capacity and subtract that capacity; otherwise set
the head to the remainder and continue with remainder 0. -/
def default_set_buf_init : List MutBuf → Nat → List MutBuf
  | [], _ => []
  | b :: rest, n =>
    if b.cap ≤ n then b.setBufInit b.cap :: default_set_buf_init rest (n - b.cap)
    else b.setBufInit n :: default_set_buf_init rest 0

/-- Modelled from the spec: the greedy front-to-back distribution of
`n` over sub-buffer capacities — each sub-buffer in order receives its
full capacity while the remainder is at least that capacity, the next
one receives the remainder, and all later ones receive 0. -/
def greedyDist : List Nat → Nat → List Nat
  | [], _ => []
  | c :: rest, n => if c ≤ n then c :: greedyDist rest (n - c) else n :: greedyDist rest 0

/-- A byte buffer: backing bytes, initialized length, and capacity.
For a borrowed byte slice both length and capacity equal the number of
backing bytes. -/
structure ByteBuf where
  bytes : List Nat
  len : Nat
  cap : Nat
deriving DecidableEq

/-- Modelled from the spec: the scoped view produced by `slice` (the
`Slice` wrapper type itself is outside the excerpted sources). The
view has its pointer advanced by the lower bound, length
`min(original_length, upper) - lower`, capacity `upper - lower`; its
initialized bytes are therefore the backing bytes from the lower bound
up to `min(original_length, upper)`. -/
structure SliceView where
  viewBytes : List Nat
  viewLen : Nat
  viewCap : Nat
deriving DecidableEq

/-- Build the scoped view of `b` over bounds `[s, e)`. -/
def mkSliceView (b : ByteBuf) (s e : Nat) : SliceView :=
  { viewBytes := (b.bytes.drop s).take (min b.len e - s)
  , viewLen := min b.len e - s
  , viewCap := e - s }

/-- `IoBuf::slice` (io_buf.rs) with the range already resolved to
bounds `[s, e)` (an unbounded upper end resolves to the capacity):
assert `s ≤ capacity`, `e ≤ capacity` and `s ≤ length` — a violated
assertion panics, modelled as `none` — then build the view. -/
def ioBufSlice (b : ByteBuf) (s e : Nat) : Option SliceView :=
  if s ≤ b.cap then
    if e ≤ b.cap then
      if s ≤ b.len then some (mkSliceView b s e) else none
    else none
  else none

/-- The 11-byte buffer holding the bytes of the text hello world. -/
def helloWorldBuf : ByteBuf :=
  { bytes := [104, 101, 108, 108, 111, 32, 119, 111, 114, 108, 100], len := 11, cap := 11 }

/-- Linux error code ETIME. -/
def ETIME : Nat := 62

/-- Linux error code ETIMEDOUT. -/
def ETIMEDOUT : Nat := 110

/-- Linux error code EBUSY. -/
def EBUSY : Nat := 16

/-- Linux error code EAGAIN. -/
def EAGAIN : Nat := 11

/-- Linux error code ECANCELED. -/
def ECANCELED : Nat := 125

/-- The reserved identifier tagging async-cancel submissions:
`u64::MAX`. -/
def CANCEL : Nat := 2 ^ 64 - 1

/-- An `io::Result<usize>` reduced to what the driver observes: a
value, or an OS error code. -/
inductive IoResult where
  | ok (n : Nat)
  | err (osError : Nat)
deriving DecidableEq

/-- A kernel completion-queue entry: 64-bit user data and a signed
32-bit raw return value. -/
structure CqEntry where
  user_data : Nat
  result : Int
deriving DecidableEq

/-- A user-visible completion `Entry` (src/driver/mod.rs): user data
and the translated result. -/
structure Entry where
  user_data : Nat
  result : IoResult
deriving DecidableEq

/-- `create_entry` (iour/mod.rs): a negative kernel return value is an
error — `-ECANCELED` becomes `ETIMEDOUT`, any other negative value `v`
becomes the OS error `-v` — and a non-negative one is a success. -/
def create_entry (e : CqEntry) : Entry :=
  if e.result < 0 then
    { user_data := e.user_data
    , result := IoResult.err (if e.result = -(ECANCELED : Int) then ETIMEDOUT else (-e.result).toNat) }
  else
    { user_data := e.user_data, result := IoResult.ok e.result.toNat }

/-- `Driver::poll_entries` (iour/mod.rs): drain the completion ring,
discard entries whose user data is the reserved `CANCEL` tag, and
translate the rest with `create_entry`. -/
def poll_entries (cq : List CqEntry) : List Entry :=
  cq.filterMap fun e => if e.user_data = CANCEL then none else some (create_entry e)

/-- The result translation in the words of the spec: a non-negative
kernel return becomes a success with that value; a negative one
becomes the OS error of its negation, except that `-ECANCELED` maps to
the timed-out error. Written for comparison with `create_entry`. -/
def specResult (r : Int) : IoResult :=
  if 0 ≤ r then IoResult.ok r.toNat
  else if r = -(ECANCELED : Int) then IoResult.err ETIMEDOUT
  else IoResult.err (-r).toNat

/-- A kernel submission-ring entry: either a user submission tagged
with its identifier, or an async-cancel submission tagged `CANCEL` and
targeting an identifier. -/
inductive SqEntry where
  | user (user_data : Nat)
  | cancel (target : Nat)
deriving DecidableEq

/-- The first loop of `Driver::flush_submissions` (iour/mod.rs): while
the kernel ring is not full, pop an identifier from the staging queue
and push a user submission for it; report whether the queue was seen
exhausted. -/
def flushOps (cap : Nat) : List SqEntry → List Nat → List SqEntry × List Nat × Bool
  | ring, [] => if ring.length < cap then (ring, [], true) else (ring, [], false)
  | ring, u :: rest =>
    if ring.length < cap then flushOps cap (ring ++ [SqEntry.user u]) rest
    else (ring, u :: rest, false)

/-- The second loop of `Driver::flush_submissions` (iour/mod.rs):
while the kernel ring is not full, pop a target from the cancel queue
and push an async-cancel submission tagged `CANCEL`; report whether
the queue was seen exhausted. -/
def flushCancels (cap : Nat) : List SqEntry → List Nat → List SqEntry × List Nat × Bool
  | ring, [] => if ring.length < cap then (ring, [], true) else (ring, [], false)
  | ring, t :: rest =>
    if ring.length < cap then flushCancels cap (ring ++ [SqEntry.cancel t]) rest
    else (ring, t :: rest, false)

/-- The backend staging state: the user-submission staging queue and
the cancel queue. -/
structure DriverState where
  squeue : List Nat
  cancel_queue : List Nat
deriving DecidableEq

/-- The outcome of one `flush_submissions` call. -/
structure FlushResult where
  ring : List SqEntry
  squeue : List Nat
  cancel_queue : List Nat
  ended : Bool
deriving DecidableEq

/-- `Driver::flush_submissions` (iour/mod.rs): run the user loop, then
the cancel loop, over the same kernel ring; the returned flag is the
conjunction of the two per-queue exhaustion flags. -/
def flush_submissions (cap : Nat) (ring : List SqEntry) (st : DriverState) : FlushResult :=
  let r1 := flushOps cap ring st.squeue
  let r2 := flushCancels cap r1.1 st.cancel_queue
  { ring := r2.1, squeue := r1.2.1, cancel_queue := r2.2.1, ended := r1.2.2 && r2.2.2 }

/-- The raw outcome of a kernel submit call, supplied by the kernel
oracle: a submitted count or a raw OS error. -/
inductive SubmitRaw where
  | okRes (n : Nat)
  | osErr (e : Nat)
deriving DecidableEq

/-- Whether a raw submit outcome is a success. -/
def SubmitRaw.isOk : SubmitRaw → Bool
  | SubmitRaw.okRes _ => true
  | SubmitRaw.osErr _ => false

/-- `Driver::submit_auto` (iour/mod.rs): the kernel call chosen by
`wait` and `timeout` returns `raw`; `ETIME` is translated to
`ETIMEDOUT`, `EBUSY` and `EAGAIN` are absorbed as success, any other
error propagates unchanged. -/
def submit_auto (_timeout : Option Nat) (_wait : Bool) (raw : SubmitRaw) : Except Nat Unit :=
  match raw with
  | SubmitRaw.okRes _ => Except.ok ()
  | SubmitRaw.osErr e =>
    if e = ETIME then Except.error ETIMEDOUT
    else if e = EBUSY ∨ e = EAGAIN then Except.ok ()
    else Except.error e

/-- One step of the kernel oracle: the raw result of the submit call
of that iteration, and the completion-queue entries available to the
subsequent completion drain. -/
structure PollStep where
  subRaw : SubmitRaw
  completions : List CqEntry
deriving DecidableEq

/-- Decidable equality for the poll return value. -/
instance exceptNatUnitDecEq : DecidableEq (Except Nat Unit)
  | Except.ok (), Except.ok () => isTrue rfl
  | Except.ok (), Except.error _ => isFalse (fun h => Except.noConfusion h)
  | Except.error _, Except.ok () => isFalse (fun h => Except.noConfusion h)
  | Except.error a, Except.error b =>
    if h : a = b then isTrue (by rw [h])
    else isFalse (by intro hh; cases hh; exact h rfl)

/-- The observable outcome of a `Driver::poll` call: its return value,
the entries appended to the caller sink, the final staging state, the
unsubmitted kernel-ring content, and the log of all submission entries
handed to the kernel during the call. -/
structure PollOutcome where
  res : Except Nat Unit
  entries : List Entry
  final : DriverState
  ring : List SqEntry
  submitted : List SqEntry
deriving DecidableEq

/-- The loop of `Driver::poll` (iour/mod.rs): flush submissions, call
`submit_auto` with `wait` equal to the flush flag (an error returns at
once, leaving the sink as it is), on a successful raw submit hand the
ring content to the kernel, drain completions into the sink, and stop
when the flush flag was set. The oracle supplies one `PollStep` per
iteration; `none` means the oracle ran out of steps. -/
def pollLoop (cap : Nat) (tm : Option Nat) :
    List PollStep → List SqEntry → DriverState → List Entry → List SqEntry → Option PollOutcome
  | [], _, _, _, _ => none
  | step :: rest, ring, st, acc, log =>
    let f := flush_submissions cap ring st
    match submit_auto tm f.ended step.subRaw with
    | Except.error e =>
      some { res := Except.error e, entries := acc
           , final := { squeue := f.squeue, cancel_queue := f.cancel_queue }
           , ring := f.ring, submitted := log }
    | Except.ok () =>
      let ring' := if step.subRaw.isOk then ([] : List SqEntry) else f.ring
      let log' := if step.subRaw.isOk then log ++ f.ring else log
      let acc' := acc ++ poll_entries step.completions
      if f.ended then
        some { res := Except.ok (), entries := acc'
             , final := { squeue := f.squeue, cancel_queue := f.cancel_queue }
             , ring := ring', submitted := log' }
      else pollLoop cap tm rest ring' { squeue := f.squeue, cancel_queue := f.cancel_queue } acc' log'

/-- A slot of the operation registry: vacant (holding the next free
key, as in the slab crate free list) or occupied by an operation. -/
inductive Slot (α : Type) where
  | vacant (next : Nat)
  | occupied (val : α)
deriving DecidableEq

/-- The operation registry, modelling the slab used by `PollDriver`:
a slot array together with the head of the free list (`next` equals
the array length when the free list is empty). Identifiers are dense
small integers reused after removal. -/
structure Slab (α : Type) where
  slots : List (Slot α)
  next : Nat
deriving DecidableEq

/-- Registry lookup: the value stored at key `k`, when occupied. -/
def Slab.lookup (s : Slab α) (k : Nat) : Option α :=
  match s.slots[k]? with
  | some (Slot.occupied a) => some a
  | _ => none

/-- Slab insertion: take the free head as the new key; a vacant slot
there is overwritten and its stored link becomes the new free head,
and a key one past the end appends a slot. Returns the key. -/
def Slab.insert (s : Slab α) (a : α) : Nat × Slab α :=
  match s.slots[s.next]? with
  | some (Slot.vacant n) => (s.next, { slots := s.slots.set s.next (Slot.occupied a), next := n })
  | some (Slot.occupied _) => (s.next, s)
  | none => (s.next, { slots := s.slots ++ [Slot.occupied a], next := s.next + 1 })

/-- Slab removal (`try_remove`): when key `k` is occupied, vacate it,
link it to the old free head, make it the new free head, and return
the stored value; otherwise return nothing. -/
def Slab.tryRemove (s : Slab α) (k : Nat) : Option (α × Slab α) :=
  match s.slots[k]? with
  | some (Slot.occupied a) => some (a, { slots := s.slots.set k (Slot.vacant s.next), next := k })
  | _ => none

/-- `OwnedOperation` (src/driver/mod.rs): the operation removed from
the registry together with its identifier. -/
structure OwnedOperation (α : Type) where
  op : α
  user_data : Nat
deriving DecidableEq

/-- `PollDriver::pop` (src/driver/mod.rs) with the returned lazy
iterator advanced exactly `k` times: each advance takes the next
entry, removes its identifier from the registry — a missing identifier
is the panic of the `expect`, modelled as `none` — and yields the
entry result paired with the owned operation. -/
def popConsume (ops : Slab α) (k : Nat) (entries : List Entry) :
    Option (List (IoResult × OwnedOperation α) × Slab α) :=
  match k, entries with
  | 0, _ => some ([], ops)
  | _ + 1, [] => some ([], ops)
  | k' + 1, e :: rest =>
    match ops.tryRemove e.user_data with
    | none => none
    | some (a, ops') =>
      match popConsume ops' k' rest with
      | none => none
      | some (res, opsF) =>
        some ((e.result, { op := a, user_data := e.user_data }) :: res, opsF)

/-- Setting 0 initialized bytes changes nothing. -/
theorem MutBuf.setBufInit_zero (b : MutBuf) : b.setBufInit 0 = b := by
  simp [MutBuf.setBufInit]

/-- The vectored walk applies `set_buf_init` pointwise with the greedy
distribution of the requested count over the capacities. -/
theorem default_set_buf_init_eq_greedy (bufs : List MutBuf) (n : Nat) :
    default_set_buf_init bufs n
      = List.zipWith MutBuf.setBufInit bufs (greedyDist (bufs.map MutBuf.cap) n) := by
  induction bufs generalizing n with
  | nil => simp [default_set_buf_init, greedyDist]
  | cons b rest ih =>
    by_cases h : b.cap ≤ n <;> simp [default_set_buf_init, greedyDist, h, ih]

/-- The greedy distribution hands out `min n (sum of capacities)` in
total. -/
theorem greedyDist_sum (cs : List Nat) (n : Nat) :
    (greedyDist cs n).sum = min n cs.sum := by
  induction cs generalizing n with
  | nil => simp [greedyDist]
  | cons c rest ih =>
    by_cases h : c ≤ n <;> simp [greedyDist, h, ih] <;> omega

/-- C6: for every vectored mutable buffer, `set_buf_init(n)` equals
applying `set_buf_init` to the sub-buffers in order with the arguments
of the greedy front-to-back distribution of `n` over their capacities
(full capacity while the remainder is at least it, then the remainder,
then 0); a distributed 0 is a no-op; and the distributed values along
this greedy distribution sum to `min n (total capacity)`. -/
theorem c6_vectored_set_buf_init (bufs : List MutBuf) (n : Nat) :
    default_set_buf_init bufs n
      = List.zipWith MutBuf.setBufInit bufs (greedyDist (bufs.map MutBuf.cap) n)
    ∧ (∀ b : MutBuf, b.setBufInit 0 = b)
    ∧ (greedyDist (bufs.map MutBuf.cap) n).sum = min n (bufs.map MutBuf.cap).sum :=
  ⟨default_set_buf_init_eq_greedy bufs n, fun b => MutBuf.setBufInit_zero b,
    greedyDist_sum (bufs.map MutBuf.cap) n⟩

/-- C7: with `n ≤ capacity`, `set_buf_init n` records `n` when `n`
exceeds the initialized length and leaves the buffer unchanged
otherwise; it is monotone — a second call with a smaller argument is a
no-op, and a call with `n` at least the current length raises the
length exactly to `n`. -/
theorem c7_set_buf_init_monotone (b : MutBuf) (n m : Nat) (hn : n ≤ b.cap) :
    (b.len < n → (b.setBufInit n).len = n)
    ∧ (n ≤ b.len → b.setBufInit n = b)
    ∧ (m ≤ n → (b.setBufInit n).setBufInit m = b.setBufInit n)
    ∧ (b.len ≤ n → (b.setBufInit n).len = n) := by
  refine ⟨fun h => ?_, fun h => ?_, fun h => ?_, fun h => ?_⟩
  · simp [MutBuf.setBufInit, if_pos h]
  · simp [MutBuf.setBufInit, Nat.not_lt.mpr h]
  · have hx : ¬ (b.setBufInit n).len < m := by
      simp only [MutBuf.setBufInit]; split_ifs <;> simp <;> omega
    generalize b.setBufInit n = x at hx ⊢
    simp [MutBuf.setBufInit, hx]
  · simp only [MutBuf.setBufInit]; split_ifs <;> first | rfl | omega

/-- C7 witness: the concrete buffer with capacity 10 and 3 initialized
bytes has its length raised to 5. -/
theorem c7_witness : ((⟨10, 3⟩ : MutBuf).setBufInit 5).len = 5 :=
  (c7_set_buf_init_monotone ⟨10, 3⟩ 5 2 (by decide)).1 (by decide)

/-- C8: slicing panics exactly when the lower bound exceeds the
capacity, the upper bound exceeds the capacity, or the lower bound
exceeds the initialized length; over the 11-byte buffer of the text
hello world, bounds `[6, 11)` expose the 5 trailing bytes, `[0, 5)`
the 5 leading bytes, `[11, 11)` an empty view, and a lower bound of 12
panics. -/
theorem c8_slice_bounds (b : ByteBuf) (s e : Nat) :
    (ioBufSlice b s e = none ↔ b.cap < s ∨ b.cap < e ∨ b.len < s)
    ∧ ioBufSlice helloWorldBuf 6 11 = some ⟨[119, 111, 114, 108, 100], 5, 5⟩
    ∧ ioBufSlice helloWorldBuf 0 5 = some ⟨[104, 101, 108, 108, 111], 5, 5⟩
    ∧ ioBufSlice helloWorldBuf 11 11 = some ⟨[], 0, 0⟩
    ∧ ioBufSlice helloWorldBuf 12 11 = none := by
  refine ⟨?_, by decide, by decide, by decide, by decide⟩
  unfold ioBufSlice
  split_ifs <;> simp <;> omega

/-- The per-entry code translation agrees with the spec wording of the
result translation. -/
theorem create_entry_eq_spec (e : CqEntry) :
    create_entry e = { user_data := e.user_data, result := specResult e.result } := by
  unfold create_entry specResult
  split_ifs with h1 h2 h3 h4 <;> simp_all <;> omega

/-- C3: the completion drain discards exactly the entries tagged with
the reserved `CANCEL` identifier and appends each remaining one as an
`Entry` whose result is a success for a non-negative kernel value, the
OS error of the negation for a negative one, and the timed-out error
for `-ECANCELED`. -/
theorem c3_completion_drain (cq : List CqEntry) :
    poll_entries cq = cq.filterMap fun e =>
      if e.user_data = CANCEL then none
      else some { user_data := e.user_data, result := specResult e.result } := by
  unfold poll_entries
  induction cq with
  | nil => rfl
  | cons e rest ih =>
    by_cases h : e.user_data = CANCEL <;>
      simp [List.filterMap_cons, h, ih, create_entry_eq_spec]

/-- C9: the submit step translates a timeout-expired kernel error to
the timed-out error, absorbs busy and try-again kernel errors as
success, reports a raw success as success, and propagates every other
kernel error unchanged. -/
theorem c9_submit_error_translation (tm : Option Nat) (w : Bool) (n e : Nat)
    (he1 : e ≠ ETIME) (he2 : e ≠ EBUSY) (he3 : e ≠ EAGAIN) :
    submit_auto tm w (SubmitRaw.osErr ETIME) = Except.error ETIMEDOUT
    ∧ submit_auto tm w (SubmitRaw.osErr EBUSY) = Except.ok ()
    ∧ submit_auto tm w (SubmitRaw.osErr EAGAIN) = Except.ok ()
    ∧ submit_auto tm w (SubmitRaw.okRes n) = Except.ok ()
    ∧ submit_auto tm w (SubmitRaw.osErr e) = Except.error e := by
  refine ⟨rfl, rfl, rfl, rfl, ?_⟩
  show (if e = ETIME then Except.error ETIMEDOUT
    else if e = EBUSY ∨ e = EAGAIN then Except.ok () else Except.error e) = Except.error e
  split_ifs <;> simp_all

/-- C9 witness: the kernel error 13 (EACCES) propagates unchanged. -/
theorem c9_witness : submit_auto none true (SubmitRaw.osErr 13) = Except.error 13 :=
  (c9_submit_error_translation none true 0 13 (by decide) (by decide) (by decide)).2.2.2.2

/-- Closed form of the user-submission flush loop: it pushes the
longest prefix of the staging queue that fits in the free ring space,
keeps the rest queued, and reports exhaustion exactly when the whole
queue fit strictly within the free space. -/
theorem flushOps_eq (cap : Nat) (sq : List Nat) : ∀ ring : List SqEntry,
    flushOps cap ring sq
      = (ring ++ (sq.take (min (cap - ring.length) sq.length)).map SqEntry.user,
         sq.drop (min (cap - ring.length) sq.length),
         decide (sq.length < cap - ring.length)) := by
  induction sq with
  | nil =>
    intro ring
    unfold flushOps
    split_ifs with h <;> simp <;> omega
  | cons u rest ih =>
    intro ring
    unfold flushOps
    split_ifs with h
    · rw [ih (ring ++ [SqEntry.user u])]
      have hm : min (cap - ring.length) (rest.length + 1)
          = min (cap - (ring.length + 1)) rest.length + 1 := by omega
      simp only [List.length_append, List.length_cons, List.length_nil,
        List.length_singleton, hm, List.take_succ_cons, List.drop_succ_cons,
        List.map_cons, List.append_assoc, List.singleton_append, Prod.mk.injEq]
      refine ⟨trivial, trivial, ?_⟩
      rw [decide_eq_decide]
      omega
    · have h0 : cap - ring.length = 0 := by omega
      simp [h0]

/-- Closed form of the cancel flush loop, mirror of the user loop. -/
theorem flushCancels_eq (cap : Nat) (cq : List Nat) : ∀ ring : List SqEntry,
    flushCancels cap ring cq
      = (ring ++ (cq.take (min (cap - ring.length) cq.length)).map SqEntry.cancel,
         cq.drop (min (cap - ring.length) cq.length),
         decide (cq.length < cap - ring.length)) := by
  induction cq with
  | nil =>
    intro ring
    unfold flushCancels
    split_ifs with h <;> simp <;> omega
  | cons t rest ih =>
    intro ring
    unfold flushCancels
    split_ifs with h
    · rw [ih (ring ++ [SqEntry.cancel t])]
      have hm : min (cap - ring.length) (rest.length + 1)
          = min (cap - (ring.length + 1)) rest.length + 1 := by omega
      simp only [List.length_append, List.length_cons, List.length_nil,
        List.length_singleton, hm, List.take_succ_cons, List.drop_succ_cons,
        List.map_cons, List.append_assoc, List.singleton_append, Prod.mk.injEq]
      refine ⟨trivial, trivial, ?_⟩
      rw [decide_eq_decide]
      omega
    · have h0 : cap - ring.length = 0 := by omega
      simp [h0]

/-- Closed form of a whole submission flush: the user prefix that fits
is pushed first, then the cancel prefix that fits in the remaining
space; the queues keep their unpushed suffixes; the flag is the
conjunction of the two strict-fit conditions. -/
theorem flush_submissions_eq (cap : Nat) (ring : List SqEntry) (sq cq : List Nat) :
    flush_submissions cap ring ⟨sq, cq⟩
      = { ring := ring ++ (sq.take (min (cap - ring.length) sq.length)).map SqEntry.user
              ++ (cq.take (min (cap - (ring.length + min (cap - ring.length) sq.length))
                    cq.length)).map SqEntry.cancel
        , squeue := sq.drop (min (cap - ring.length) sq.length)
        , cancel_queue := cq.drop (min (cap - (ring.length + min (cap - ring.length) sq.length))
            cq.length)
        , ended := decide (sq.length < cap - ring.length)
              && decide (cq.length < cap - (ring.length + min (cap - ring.length) sq.length)) } := by
  have hlen : (ring ++ (sq.take (min (cap - ring.length) sq.length)).map SqEntry.user).length
      = ring.length + min (cap - ring.length) sq.length := by
    simp [List.length_take]
  simp only [flush_submissions]
  rw [flushOps_eq]
  simp only []
  rw [flushCancels_eq]
  rw [hlen]

/-- C2 (amended): in one flush the pushed entries are a prefix of the
user staging queue, as user submissions, followed by a prefix of the
cancel queue, as async-cancel submissions; a cancel entry is pushed
only after all pending user identifiers were pushed; the fully-drained
flag implies both queues are empty after the flush — the converse
direction fails, see the counterexample. -/
theorem c2_flush_order_and_drained (cap : Nat) (ring : List SqEntry) (sq cq : List Nat) :
    (flush_submissions cap ring ⟨sq, cq⟩).ring
        = ring ++ (sq.take (min (cap - ring.length) sq.length)).map SqEntry.user
            ++ (cq.take (min (cap - (ring.length + min (cap - ring.length) sq.length))
                  cq.length)).map SqEntry.cancel
    ∧ (flush_submissions cap ring ⟨sq, cq⟩).squeue = sq.drop (min (cap - ring.length) sq.length)
    ∧ (flush_submissions cap ring ⟨sq, cq⟩).cancel_queue
        = cq.drop (min (cap - (ring.length + min (cap - ring.length) sq.length)) cq.length)
    ∧ (0 < min (cap - (ring.length + min (cap - ring.length) sq.length)) cq.length
        → (flush_submissions cap ring ⟨sq, cq⟩).squeue = [])
    ∧ ((flush_submissions cap ring ⟨sq, cq⟩).ended = true
        → (flush_submissions cap ring ⟨sq, cq⟩).squeue = []
          ∧ (flush_submissions cap ring ⟨sq, cq⟩).cancel_queue = []) := by
  rw [flush_submissions_eq]
  refine ⟨rfl, rfl, rfl, ?_, ?_⟩
  · intro h
    have hk : min (cap - ring.length) sq.length = sq.length := by omega
    simp [hk]
  · simp only [Bool.and_eq_true, decide_eq_true_eq]
    rintro ⟨ha, hb⟩
    have hk : min (cap - ring.length) sq.length = sq.length := by omega
    have hl : min (cap - (ring.length + sq.length)) cq.length = cq.length := by omega
    simp [hk, hl]

/-- C2 witness: with ring capacity 3 and one identifier in each queue,
the flush drains both queues and reports it. -/
theorem c2_witness :
    (flush_submissions 3 [] ⟨[3], [4]⟩).squeue = []
    ∧ (flush_submissions 3 [] ⟨[3], [4]⟩).cancel_queue = [] :=
  (c2_flush_order_and_drained 3 [] [3] [4]).2.2.2.2 (by decide)

/-- C2 counterexample: with ring capacity 1 and exactly one queued
user identifier, the flush pushes it and empties both queues, yet the
fully-drained flag is false because the ring filled exactly as the
queue emptied — so the flag is not true exactly when both queues are
empty after the flush. -/
theorem c2_counterexample :
    (flush_submissions 1 [] ⟨[5], []⟩).squeue = []
    ∧ (flush_submissions 1 [] ⟨[5], []⟩).cancel_queue = []
    ∧ (flush_submissions 1 [] ⟨[5], []⟩).ended = false := by
  exact ⟨by decide, by decide, by decide⟩

/-- One loop iteration of `poll` whose raw submit succeeds: the ring
content is handed to the kernel, completions are drained, and the loop
stops exactly when the flush flag was set. -/
theorem pollLoop_cons_ok (cap : Nat) (tm : Option Nat) (s : PollStep) (rest : List PollStep)
    (ring : List SqEntry) (st : DriverState) (acc : List Entry) (log : List SqEntry)
    (m : Nat) (hm : s.subRaw = SubmitRaw.okRes m) :
    pollLoop cap tm (s :: rest) ring st acc log
      = (if (flush_submissions cap ring st).ended then
           some { res := Except.ok (), entries := acc ++ poll_entries s.completions
                , final := ⟨(flush_submissions cap ring st).squeue,
                    (flush_submissions cap ring st).cancel_queue⟩
                , ring := []
                , submitted := log ++ (flush_submissions cap ring st).ring }
         else pollLoop cap tm rest []
            ⟨(flush_submissions cap ring st).squeue, (flush_submissions cap ring st).cancel_queue⟩
            (acc ++ poll_entries s.completions) (log ++ (flush_submissions cap ring st).ring)) := by
  simp [pollLoop, hm, submit_auto, SubmitRaw.isOk]

/-- On a trace of successful raw submits, a poll call starting with an
empty kernel ring drains both staging queues and hands every queued
identifier to the kernel, users first, cancels second. -/
theorem pollLoop_drains (cap : Nat) (tm : Option Nat) (hcap : 1 ≤ cap) :
    ∀ (n : Nat) (sq cq : List Nat) (steps : List PollStep) (acc : List Entry) (log : List SqEntry),
      sq.length + cq.length = n →
      (∀ s ∈ steps, s.subRaw.isOk = true) →
      n + 1 ≤ steps.length →
      ∃ out, pollLoop cap tm steps [] ⟨sq, cq⟩ acc log = some out
        ∧ out.res = Except.ok ()
        ∧ out.submitted = log ++ sq.map SqEntry.user ++ cq.map SqEntry.cancel
        ∧ out.ring = []
        ∧ out.final = ⟨[], []⟩ := by
  intro n
  induction n using Nat.strong_induction_on with
  | _ n ih =>
    intro sq cq steps acc log hn hok hlen
    match steps with
    | [] => simp at hlen
    | s :: rest =>
      obtain ⟨m, hm⟩ : ∃ m, s.subRaw = SubmitRaw.okRes m := by
        have hs := hok s (List.mem_cons_self s rest)
        cases h : s.subRaw with
        | okRes m => exact ⟨m, rfl⟩
        | osErr e => rw [h] at hs; simp [SubmitRaw.isOk] at hs
      have hflush := flush_submissions_eq cap [] sq cq
      simp only [List.length_nil, Nat.sub_zero, Nat.zero_add, List.nil_append] at hflush
      rw [pollLoop_cons_ok cap tm s rest [] ⟨sq, cq⟩ acc log m hm]
      rw [hflush]
      by_cases hend : sq.length < cap ∧ cq.length < cap - min cap sq.length
      · have hETrue : (decide (sq.length < cap) && decide (cq.length < cap - min cap sq.length)) = true := by
          simp [hend.1, hend.2]
        have hkk : min cap sq.length = sq.length := by omega
        rw [hETrue, hkk]
        have hll : min (cap - sq.length) cq.length = cq.length := by omega
        rw [hll, if_pos rfl]
        simp only [List.take_length, List.drop_length]
        refine ⟨_, rfl, rfl, ?_, rfl, rfl⟩
        simp [List.append_assoc]
      · have hEFalse : (decide (sq.length < cap) && decide (cq.length < cap - min cap sq.length)) = false := by
          rcases Decidable.not_and_iff_or_not.mp hend with h | h <;> simp [h]
        rw [hEFalse]
        simp only [Bool.false_eq_true, if_false]
        have hrec := ih ((sq.drop (min cap sq.length)).length
            + (cq.drop (min (cap - min cap sq.length) cq.length)).length)
          (by simp only [List.length_drop]; omega)
          (sq.drop (min cap sq.length)) (cq.drop (min (cap - min cap sq.length) cq.length))
          rest (acc ++ poll_entries s.completions)
          (log ++ ((sq.take (min cap sq.length)).map SqEntry.user
            ++ (cq.take (min (cap - min cap sq.length) cq.length)).map SqEntry.cancel))
          rfl
          (fun x hx => hok x (List.mem_cons_of_mem s hx))
          (by simp only [List.length_drop]; simp only [List.length_cons] at hlen; omega)
        obtain ⟨out, h1, h2, h3, h4, h5⟩ := hrec
        refine ⟨out, h1, h2, ?_, h4, h5⟩
        rw [h3]
        by_cases hl0 : min (cap - min cap sq.length) cq.length = 0
        · simp only [hl0, List.take_zero, List.map_nil, List.append_nil, List.drop_zero]
          have hA : (sq.take (min cap sq.length)).map SqEntry.user
              ++ (sq.drop (min cap sq.length)).map SqEntry.user = sq.map SqEntry.user := by
            rw [← List.map_append, List.take_append_drop]
          rw [← hA]
          simp [List.append_assoc]
        · have hks : min cap sq.length = sq.length := by omega
          simp only [hks, List.drop_length, List.map_nil, List.nil_append, List.take_length,
            List.append_assoc]
          rw [← List.map_append, List.take_append_drop]

/-- C4: when every raw submit of the trace succeeds and the trace is
long enough, a poll call over any backlog terminates with both staging
queues drained and every identifier pending at the start handed to the
kernel ring (users in order, then cancels), even when the backlog
exceeds the ring capacity; and an identifier that does not fit in one
flush pass stays in the staging queue rather than being dropped. -/
theorem c4_no_lost_work (cap : Nat) (tm : Option Nat) (sq cq : List Nat)
    (steps : List PollStep)
    (hcap : 1 ≤ cap)
    (hok : ∀ s ∈ steps, s.subRaw.isOk = true)
    (hlen : sq.length + cq.length + 1 ≤ steps.length) :
    (∃ out, pollLoop cap tm steps [] ⟨sq, cq⟩ [] [] = some out
      ∧ out.res = Except.ok ()
      ∧ out.submitted = sq.map SqEntry.user ++ cq.map SqEntry.cancel
      ∧ out.ring = []
      ∧ out.final = ⟨[], []⟩)
    ∧ ∀ (ring : List SqEntry) (sq' : List Nat),
        (flushOps cap ring sq').2.1 = sq'.drop (min (cap - ring.length) sq'.length) := by
  constructor
  · obtain ⟨out, h1, h2, h3, h4, h5⟩ :=
      pollLoop_drains cap tm hcap (sq.length + cq.length) sq cq steps [] [] rfl hok hlen
    exact ⟨out, h1, h2, by simpa using h3, h4, h5⟩
  · intro ring sq'
    rw [flushOps_eq]

/-- C4 witness: two identifiers submitted through a ring of capacity
1 are both handed to the kernel across two flush passes. -/
theorem c4_witness :
    ∃ out, pollLoop 1 none
        [⟨SubmitRaw.okRes 1, []⟩, ⟨SubmitRaw.okRes 1, []⟩, ⟨SubmitRaw.okRes 1, []⟩]
        [] ⟨[0, 1], []⟩ [] [] = some out
      ∧ out.res = Except.ok ()
      ∧ out.submitted = [0, 1].map SqEntry.user ++ ([] : List Nat).map SqEntry.cancel
      ∧ out.ring = []
      ∧ out.final = ⟨[], []⟩ :=
  (c4_no_lost_work 1 none [0, 1] []
    [⟨SubmitRaw.okRes 1, []⟩, ⟨SubmitRaw.okRes 1, []⟩, ⟨SubmitRaw.okRes 1, []⟩]
    (by decide) (by decide) (by decide)).1

/-- C1 (amended): when the submit call of the first loop iteration
fails — in particular when the backlog fits in one flush and the
waiting submit reports the timed-out error — the poll call returns
that error with zero entries appended to the sink. (As stated
originally the claim fails once the call loops: see the
counterexample, where entries drained by an earlier iteration stay in
the sink although poll returns the timed-out error.) -/
theorem c1_first_iteration_timeout_no_entries (cap : Nat) (tm : Option Nat)
    (ring : List SqEntry) (st : DriverState) (step : PollStep) (rest : List PollStep) (e : Nat)
    (herr : submit_auto tm (flush_submissions cap ring st).ended step.subRaw = Except.error e) :
    ∃ out, pollLoop cap tm (step :: rest) ring st [] [] = some out
      ∧ out.res = Except.error e ∧ out.entries = [] := by
  have hstep : pollLoop cap tm (step :: rest) ring st [] []
      = some { res := Except.error e, entries := []
             , final := ⟨(flush_submissions cap ring st).squeue,
                 (flush_submissions cap ring st).cancel_queue⟩
             , ring := (flush_submissions cap ring st).ring, submitted := [] } := by
    simp [pollLoop, herr]
  exact ⟨_, hstep, rfl, rfl⟩

/-- C1 witness: one queued identifier, ring capacity 4, a waiting
submit that reports ETIME: poll returns the timed-out error and the
sink stays empty. -/
theorem c1_witness :
    ∃ out, pollLoop 4 (some 1) [⟨SubmitRaw.osErr 62, []⟩] [] ⟨[1], []⟩ [] [] = some out
      ∧ out.res = Except.error 110 ∧ out.entries = [] :=
  c1_first_iteration_timeout_no_entries 4 (some 1) [] ⟨[1], []⟩ ⟨SubmitRaw.osErr 62, []⟩ [] 110
    (by decide)

/-- C1 counterexample: three identifiers through a ring of capacity 2
with a timeout of 5. The first iteration cannot drain the backlog, its
submit succeeds, and its completion drain appends one entry; the
second iteration drains the queue and its waiting submit reports
ETIME. The call returns the timed-out error although one entry was
appended to the sink during the call — so a timed-out return does not
imply that nothing completed within the call. -/
theorem c1_counterexample :
    pollLoop 2 (some 5) [⟨SubmitRaw.okRes 3, [⟨0, 7⟩]⟩, ⟨SubmitRaw.osErr ETIME, []⟩]
        [] ⟨[0, 1, 2], []⟩ [] []
      = some ⟨Except.error ETIMEDOUT, [⟨0, IoResult.ok 7⟩], ⟨[], []⟩,
          [SqEntry.user 2], [SqEntry.user 0, SqEntry.user 1]⟩
    ∧ ([⟨0, IoResult.ok 7⟩] : List Entry) ≠ [] := ⟨by decide, by decide⟩

/-- Registry lookup succeeds exactly on an occupied slot. -/
theorem Slab.lookup_eq_some_iff {α : Type} {s : Slab α} {k : Nat} {a : α} :
    s.lookup k = some a ↔ s.slots[k]? = some (Slot.occupied a) := by
  unfold Slab.lookup
  cases h : s.slots[k]? with
  | none => simp
  | some sl => cases sl <;> simp

/-- Removing a registered key succeeds and vacates exactly that slot,
making it the free-list head. -/
theorem Slab.tryRemove_of_lookup {α : Type} {s : Slab α} {k : Nat} {a : α}
    (h : s.lookup k = some a) :
    s.tryRemove k = some (a, ⟨s.slots.set k (Slot.vacant s.next), k⟩) := by
  unfold Slab.tryRemove
  rw [Slab.lookup_eq_some_iff.mp h]

/-- Removing an unregistered key fails. -/
theorem Slab.tryRemove_of_lookup_none {α : Type} {s : Slab α} {k : Nat}
    (h : s.lookup k = none) : s.tryRemove k = none := by
  unfold Slab.tryRemove
  unfold Slab.lookup at h
  cases hh : s.slots[k]? with
  | none => rfl
  | some sl =>
    cases sl with
    | vacant n => rfl
    | occupied a => rw [hh] at h; simp at h

/-- A successful removal changes the lookup of the removed key to
nothing and no other lookup. -/
theorem Slab.lookup_tryRemove {α : Type} {s s' : Slab α} {k : Nat} {a : α}
    (h : s.tryRemove k = some (a, s')) (j : Nat) :
    s'.lookup j = if j = k then none else s.lookup j := by
  unfold Slab.tryRemove at h
  cases hh : s.slots[k]? with
  | none => rw [hh] at h; simp at h
  | some sl =>
    cases sl with
    | vacant n => rw [hh] at h; simp at h
    | occupied b =>
      rw [hh] at h
      simp only [Option.some.injEq, Prod.mk.injEq] at h
      obtain ⟨hab, hs'⟩ := h
      subst hs'
      have hk : k < s.slots.length := (List.getElem?_eq_some.mp hh).1
      by_cases hjk : j = k
      · subst hjk
        unfold Slab.lookup
        rw [List.getElem?_set_eq_of_lt _ hk]
        simp
      · unfold Slab.lookup
        rw [List.getElem?_set_ne (fun hkj => hjk hkj.symm)]
        rw [if_neg hjk]

/-- Inserting right after a removal reuses the removed key: the slab
free list is last-in first-out. -/
theorem Slab.insert_after_remove {α : Type} {s s' : Slab α} {k : Nat} {a : α}
    (h : s.tryRemove k = some (a, s')) (b : α) : (s'.insert b).1 = k := by
  unfold Slab.tryRemove at h
  cases hh : s.slots[k]? with
  | none => rw [hh] at h; simp at h
  | some sl =>
    cases sl with
    | vacant n => rw [hh] at h; simp at h
    | occupied c =>
      rw [hh] at h
      simp only [Option.some.injEq, Prod.mk.injEq] at h
      obtain ⟨hab, hs'⟩ := h
      subst hs'
      have hk : k < s.slots.length := (List.getElem?_eq_some.mp hh).1
      unfold Slab.insert
      rw [List.getElem?_set_eq_of_lt _ hk]

/-- Consuming entries only vacates registry slots: a key absent before
stays absent after. -/
theorem popConsume_preserves_none {α : Type} :
    ∀ (k : Nat) (entries : List Entry) (ops : Slab α)
      (res : List (IoResult × OwnedOperation α)) (ops' : Slab α) (id : Nat),
      ops.lookup id = none → popConsume ops k entries = some (res, ops') →
      ops'.lookup id = none
  | 0, entries, ops, res, ops', id => by
    intro hid h
    unfold popConsume at h
    simp only [Option.some.injEq, Prod.mk.injEq] at h
    rw [← h.2]
    exact hid
  | _ + 1, [], ops, res, ops', id => by
    intro hid h
    unfold popConsume at h
    simp only [Option.some.injEq, Prod.mk.injEq] at h
    rw [← h.2]
    exact hid
  | k' + 1, e :: rest, ops, res, ops', id => by
    intro hid h
    unfold popConsume at h
    cases hrem : ops.tryRemove e.user_data with
    | none => rw [hrem] at h; simp at h
    | some p =>
      obtain ⟨a, ops₁⟩ := p
      simp only [hrem] at h
      cases hrec : popConsume ops₁ k' rest with
      | none => simp only [hrec] at h; exact Option.noConfusion h
      | some q =>
        obtain ⟨res₁, opsF⟩ := q
        simp only [hrec, Option.some.injEq, Prod.mk.injEq] at h
        have hp1 : ops₁.lookup id = none := by
          rw [Slab.lookup_tryRemove hrem id]
          split_ifs <;> simp [hid]
        have hrest := popConsume_preserves_none k' rest ops₁ res₁ opsF id hp1 hrec
        rw [← h.2]
        exact hrest

/-- C5: consuming one entry through pop removes its identifier from
the registry and yields the entry result paired with the owned
operation wrapper for that identifier; afterwards the identifier is
absent from the registry and the next insertion returns the same
identifier again; consuming an entry whose identifier is not
registered is the modelled panic. -/
theorem c5_pop_registry (α : Type) (ops ops₂ : Slab α) (e : Entry) (a : α)
    (hreg : ops.lookup e.user_data = some a)
    (hun : ops₂.lookup e.user_data = none) :
    (∃ ops', popConsume ops 1 [e] = some ([(e.result, ⟨a, e.user_data⟩)], ops')
      ∧ ops'.lookup e.user_data = none
      ∧ ∀ b : α, (ops'.insert b).1 = e.user_data)
    ∧ popConsume ops₂ 1 [e] = none := by
  constructor
  · have hrem := Slab.tryRemove_of_lookup hreg
    refine ⟨⟨ops.slots.set e.user_data (Slot.vacant ops.next), e.user_data⟩, ?_, ?_, ?_⟩
    · simp [popConsume, hrem]
    · rw [Slab.lookup_tryRemove hrem]
      simp
    · intro b
      exact Slab.insert_after_remove hrem b
  · simp [popConsume, Slab.tryRemove_of_lookup_none hun]

/-- C5 witness: a one-slot registry holding the operation 42 at key 0;
the entry for key 0 yields the pair and vacates the key, the next
insertion returns key 0, and against an empty registry the same entry
is the modelled panic. -/
theorem c5_witness :
    (∃ ops', popConsume (Slab.mk [Slot.occupied 42] 1) 1 [⟨0, IoResult.ok 7⟩]
        = some ([(IoResult.ok 7, ⟨42, 0⟩)], ops')
      ∧ ops'.lookup 0 = none
      ∧ ∀ b : Nat, (ops'.insert b).1 = 0)
    ∧ popConsume (Slab.mk ([] : List (Slot Nat)) 0) 1 [⟨0, IoResult.ok 7⟩] = none :=
  c5_pop_registry Nat (Slab.mk [Slot.occupied 42] 1) (Slab.mk [] 0) ⟨0, IoResult.ok 7⟩ 42
    (by decide) (by decide)

/-- C10: pop mutates the registry only as its returned iterator is
advanced — advancing zero times removes nothing; after consuming
exactly k items, the yielded pairs carry exactly the results and
identifiers of the first k entries, each consumed identifier is absent
from the registry, and every identifier not among them has an
unchanged lookup. -/
theorem c10_pop_frame (α : Type) :
    ∀ (k : Nat) (entries : List Entry) (ops : Slab α)
      (res : List (IoResult × OwnedOperation α)) (ops' : Slab α),
      popConsume ops k entries = some (res, ops') →
      popConsume ops 0 entries = some ([], ops)
      ∧ res.map (fun r => r.2.user_data) = (entries.take k).map Entry.user_data
      ∧ res.map Prod.fst = (entries.take k).map Entry.result
      ∧ (∀ r ∈ res, ops'.lookup r.2.user_data = none)
      ∧ (∀ id : Nat, (∀ r ∈ res, r.2.user_data ≠ id) → ops'.lookup id = ops.lookup id)
  | 0, entries, ops, res, ops' => by
    intro h
    unfold popConsume at h
    simp only [Option.some.injEq, Prod.mk.injEq] at h
    obtain ⟨hres, hops⟩ := h
    subst hres; subst hops
    simp [popConsume]
  | k' + 1, [], ops, res, ops' => by
    intro h
    unfold popConsume at h
    simp only [Option.some.injEq, Prod.mk.injEq] at h
    obtain ⟨hres, hops⟩ := h
    subst hres; subst hops
    simp [popConsume]
  | k' + 1, e :: rest, ops, res, ops' => by
    intro h
    unfold popConsume at h
    cases hrem : ops.tryRemove e.user_data with
    | none => rw [hrem] at h; simp at h
    | some p =>
      obtain ⟨a, ops₁⟩ := p
      simp only [hrem] at h
      cases hrec : popConsume ops₁ k' rest with
      | none => simp only [hrec] at h; exact Option.noConfusion h
      | some q =>
        obtain ⟨res₁, opsF⟩ := q
        simp only [hrec, Option.some.injEq, Prod.mk.injEq] at h
        obtain ⟨hres, hops⟩ := h
        subst hres; subst hops
        obtain ⟨_, hids, hress, hnone, hframe⟩ :=
          c10_pop_frame α k' rest ops₁ res₁ opsF hrec
        refine ⟨by simp [popConsume], ?_, ?_, ?_, ?_⟩
        · simp [List.take_succ_cons, hids]
        · simp [List.take_succ_cons, hress]
        · intro r hr
          rcases List.mem_cons.mp hr with hhead | htail
          · subst hhead
            have h1 : ops₁.lookup e.user_data = none := by
              rw [Slab.lookup_tryRemove hrem]
              simp
            exact popConsume_preserves_none k' rest ops₁ res₁ opsF e.user_data h1 hrec
          · exact hnone r htail
        · intro id hid
          have hhead : e.user_data ≠ id :=
            hid (e.result, ⟨a, e.user_data⟩) (List.mem_cons_self _ _)
          have htail : ∀ r ∈ res₁, r.2.user_data ≠ id := fun r hr =>
            hid r (List.mem_cons_of_mem _ hr)
          rw [hframe id htail, Slab.lookup_tryRemove hrem id, if_neg (fun hh => hhead hh.symm)]

/-- C10 witness: from a three-slot registry, consuming two entries
removes keys 0 and 2, leaves key 1 registered unchanged, and yields
the two results in order. -/
theorem c10_witness :
    popConsume (Slab.mk [Slot.occupied 10, Slot.occupied 20, Slot.occupied 30] 3) 0
        [⟨0, IoResult.ok 1⟩, ⟨2, IoResult.ok 2⟩]
      = some ([], Slab.mk [Slot.occupied 10, Slot.occupied 20, Slot.occupied 30] 3)
    ∧ ([(IoResult.ok 1, (⟨10, 0⟩ : OwnedOperation Nat)), (IoResult.ok 2, ⟨30, 2⟩)].map
        (fun r => r.2.user_data))
      = ([⟨0, IoResult.ok 1⟩, (⟨2, IoResult.ok 2⟩ : Entry)].take 2).map Entry.user_data
    ∧ ([(IoResult.ok 1, (⟨10, 0⟩ : OwnedOperation Nat)), (IoResult.ok 2, ⟨30, 2⟩)].map
        Prod.fst)
      = ([⟨0, IoResult.ok 1⟩, (⟨2, IoResult.ok 2⟩ : Entry)].take 2).map Entry.result
    ∧ (∀ r ∈ [(IoResult.ok 1, (⟨10, 0⟩ : OwnedOperation Nat)), (IoResult.ok 2, ⟨30, 2⟩)],
        (Slab.mk [Slot.vacant 3, Slot.occupied 20, Slot.vacant 0] 2).lookup r.2.user_data = none)
    ∧ (∀ id : Nat,
        (∀ r ∈ [(IoResult.ok 1, (⟨10, 0⟩ : OwnedOperation Nat)), (IoResult.ok 2, ⟨30, 2⟩)],
          r.2.user_data ≠ id) →
        (Slab.mk [Slot.vacant 3, Slot.occupied 20, Slot.vacant 0] 2).lookup id
          = (Slab.mk [Slot.occupied 10, Slot.occupied 20, Slot.occupied 30] 3).lookup id) :=
  c10_pop_frame Nat 2 [⟨0, IoResult.ok 1⟩, ⟨2, IoResult.ok 2⟩]
    (Slab.mk [Slot.occupied 10, Slot.occupied 20, Slot.occupied 30] 3)
    [(IoResult.ok 1, ⟨10, 0⟩), (IoResult.ok 2, ⟨30, 2⟩)]
    (Slab.mk [Slot.vacant 3, Slot.occupied 20, Slot.vacant 0] 2) (by decide)
